import Mathlib

/-!
Shallow embedding of the `sallyport` crate (`src/sallyport/src/lib.rs`),
the hypervisor–microkernel boundary protocol of the repository.

The only compiled configuration is `target_os = "linux"`,
`target_arch = "x86_64"`: the machine word (`usize`, and the external
`Register<usize>` scalar wrapping it) is 64 bits wide and `libc::c_int`
is a 32-bit signed integer.  Register values are embedded as `Nat`
(with the bound `< 2 ^ 64` as an explicit hypothesis where it matters),
`c_int` values as `Int`, and Rust's integer casts as explicit
two's-complement reinterpretations.
-/

deriving instance DecidableEq for Except

namespace Sallyport

/-- Width of a machine word (`usize` / `Register<usize>`) in bits on the
one compiled target, x86_64. -/
def wordBits : Nat := 64

/-- Rust's wrapping reinterpretation of an integer as an `i32`
(`libc::c_int`): reduce modulo `2 ^ 32` and read the result as a
two's-complement 32-bit value. -/
def wrapI32 (v : Int) : Int :=
  if v % (2 ^ 32 : Int) < 2 ^ 31 then v % (2 ^ 32 : Int)
  else v % (2 ^ 32 : Int) - 2 ^ 32

/-- Rust `i32` negation with wrapping (release-mode) semantics: the sole
wrapping case is the `i32` minimum. -/
def negI32 (v : Int) : Int := wrapI32 (-v)

/-- The Rust cast `(v : i32) as usize` on x86_64: sign-extend to 64 bits
and reinterpret as unsigned. -/
def cintToUsize (v : Int) : Nat := (v % (2 ^ 64 : Int)).toNat

/-- The Rust cast `(n : usize) as libc::c_int` on x86_64: truncate to the
low 32 bits and reinterpret as signed. -/
def usizeToCInt (n : Nat) : Int := wrapI32 (n : Int)

/-- The constant `-4096isize as usize` from the `Reply → Result`
conversion: the base of the sentinel error band. -/
def sentinelBase : Nat := 2 ^ 64 - 4096

/-- `Reply` (fields `ret: [Register<usize>; 2]` and `err: Register<usize>`);
`ret0`/`ret1` stand for `ret[0]`/`ret[1]`. -/
structure Reply where
  ret0 : Nat
  ret1 : Nat
  err : Nat
deriving DecidableEq, Repr

/-- `impl From<Result<[Register<usize>; 2], libc::c_int>> for Reply`
(x86_64 linux).  `Ok(val)` copies the two result words and zeroes `err`;
`Err(val)` stores `(-val) as usize` in `ret[0]` and zeroes the rest.
`Register<usize>::default()` is the zero register. -/
def resultToReply : Except Int (Nat × Nat) → Reply
  | .ok val => { ret0 := val.1, ret1 := val.2, err := 0 }
  | .error val => { ret0 := cintToUsize (negI32 val), ret1 := 0, err := 0 }

/-- `impl From<Reply> for Result<[Register<usize>; 2], libc::c_int>`
(x86_64 linux): read `ret[0]` as `usize`; if it exceeds
`-4096isize as usize` return `Err(-(reg as c_int))`, else `Ok(ret)`. -/
def replyToResult (value : Reply) : Except Int (Nat × Nat) :=
  let reg : Nat := value.ret0
  if reg > sentinelBase then .error (negI32 (usizeToCInt reg))
  else .ok (value.ret0, value.ret1)

/-- `Request` (fields `num: Register<usize>` and
`arg: [Register<usize>; 7]`, the latter embedded as `Fin 7 → Nat`). -/
structure Request where
  num : Nat
  arg : Fin 7 → Nat
deriving DecidableEq

/-- `Request::new`: the selector is taken as given and each of the seven
argument slots is `arg.get(i).copied().unwrap_or_default()`, i.e. the
`i`-th element of the slice when present and the zero register otherwise. -/
def Request.new (num : Nat) (arg : List Nat) : Request :=
  { num := num
    arg := ![arg.getD 0 0, arg.getD 1 0, arg.getD 2 0, arg.getD 3 0,
             arg.getD 4 0, arg.getD 5 0, arg.getD 6 0] }

/-! ### `repr(C)` layout

Sizes are computed by the C struct-layout algorithm that `repr(C)`
guarantees: each field is placed at the current offset rounded up to the
field's alignment, and the struct size is the end offset rounded up to
the struct's (maximal) alignment.  A union's size is the maximum variant
size rounded up likewise. -/

/-- Round `off` up to the next multiple of the alignment `a`. -/
def alignUp (off a : Nat) : Nat := (off + a - 1) / a * a

/-- End offset of a `repr(C)` struct's field list (`(size, align)` pairs). -/
def reprCEnd (fields : List (Nat × Nat)) : Nat :=
  fields.foldl (fun off f => alignUp off f.2 + f.1) 0

/-- Alignment of a `repr(C)` struct or union: the maximal field alignment. -/
def reprCAlign (fields : List (Nat × Nat)) : Nat :=
  fields.foldl (fun a f => max a f.2) 1

/-- Size of a `repr(C)` struct with the given `(size, align)` field list. -/
def reprCSize (fields : List (Nat × Nat)) : Nat :=
  alignUp (reprCEnd fields) (reprCAlign fields)

/-- Size of a `repr(C)` union with the given `(size, align)` variant list. -/
def reprCUnionSize (variants : List (Nat × Nat)) : Nat :=
  alignUp (variants.foldl (fun s v => max s v.1) 0) (reprCAlign variants)

/-- Modelled from the spec: the external `memory` crate's
`Register<usize>` scalar (not under `src/`) is an ABI-stable wrapper
"matching the native machine word", hence 8 bytes in size on x86_64. -/
def registerSize : Nat := 8

/-- Modelled from the spec: alignment of the `Register<usize>` scalar,
the native machine word's alignment (8 bytes on x86_64). -/
def registerAlign : Nat := 8

/-- Modelled from the spec: the external `memory` crate's `Page::size()`
(not under `src/`), "the native page size", 4096 bytes on x86_64. -/
def pageSize : Nat := 4096

/-- `size_of::<Request>()`: `num` plus the 7-element register array
(an array `[T; n]` has size `n * size_of(T)` and the alignment of `T`). -/
def requestSize : Nat :=
  reprCSize [(registerSize, registerAlign), (7 * registerSize, registerAlign)]

/-- `size_of::<Reply>()`: the 2-element `ret` array plus `err`. -/
def replySize : Nat :=
  reprCSize [(2 * registerSize, registerAlign), (registerSize, registerAlign)]

/-- `size_of::<Message>()`: the `repr(C)` union of `Request` and `Reply`. -/
def messageSize : Nat :=
  reprCUnionSize [(requestSize, registerAlign), (replySize, registerAlign)]

/-- `Block::buf_capacity()`, verbatim from the source:
`Page::size() - size_of::<Message>()`. -/
def bufCapacity : Nat := pageSize - messageSize

/-- `size_of::<Block>()`: the `msg` union followed by the byte buffer
`buf: [u8; Block::buf_capacity()]` (size `bufCapacity`, alignment 1). -/
def blockSize : Nat :=
  reprCSize [(messageSize, registerAlign), (bufCapacity, 1)]

/-! ### Helper lemmas -/

/-- Each slot built by `Request::new` is `arg.getD i 0`. -/
theorem Request.new_arg (n : Nat) (a : List Nat) (i : Fin 7) :
    (Request.new n a).arg i = a.getD i 0 := by
  fin_cases i <;> rfl

/-- `getD` below the cut-off is unchanged by `take`. -/
theorem getD_take_of_lt (a : List Nat) (k n : Nat) (h : k < n) :
    (a.take n).getD k 0 = a.getD k 0 := by
  induction a generalizing k n with
  | nil => simp
  | cons x xs ih =>
    cases n with
    | zero => omega
    | succ n =>
      cases k with
      | zero => simp
      | succ k => simpa using ih k n (by omega)

/-! ### Claims -/

/-- C1 (amended): round-tripping `Ok([v0, v1])` through
`Result → Reply → Result` returns `Ok([v0, v1])` whenever `v0` lies at or
below the base of the sentinel band, `2 ^ 64 - 4096`.  (The original
claim, with no restriction on `v0`, is refuted below.) -/
theorem ok_roundtrip_below_band (v0 v1 : Nat) (h : v0 ≤ 2 ^ 64 - 4096) :
    replyToResult (resultToReply (.ok (v0, v1))) = .ok (v0, v1) := by
  simp only [resultToReply, replyToResult, sentinelBase]
  rw [if_neg (by omega)]

/-- Witness for C1's amended theorem at `v0 = 5`, `v1 = 6`. -/
theorem ok_roundtrip_below_band_witness :
    (5 : Nat) ≤ 2 ^ 64 - 4096 ∧
      replyToResult (resultToReply (.ok (5, 6))) = .ok (5, 6) :=
  ⟨by norm_num, ok_roundtrip_below_band 5 6 (by norm_num)⟩

/-- C1 (counterexample): for `v0 = 2 ^ 64 - 1` (a success value inside the
sentinel band, e.g. the register pattern of `-1`), the round trip yields
`Err(1)`, not `Ok([v0, v1])` — refuting the claim's "no restriction on the
value of v0". -/
theorem ok_roundtrip_fails_in_band :
    replyToResult (resultToReply (.ok (2 ^ 64 - 1, 0))) = .error 1 ∧
      replyToResult (resultToReply (.ok (2 ^ 64 - 1, 0))) ≠ .ok (2 ^ 64 - 1, 0) := by
  constructor
  · decide
  · decide

/-- C2 (amended): for every error code `e` with `1 ≤ e ≤ 4095` (the
positive `errno` range the x86_64 encoding supports), `Err(e)` round-trips
through `Result → Reply → Result` to exactly `Err(e)`.  (The spec's
"supported negative range" is refuted below: negative codes do not
round-trip.) -/
theorem err_roundtrip_errno_range (e : Int) (h1 : 1 ≤ e) (h2 : e ≤ 4095) :
    replyToResult (resultToReply (.error e)) = .error e := by
  simp only [resultToReply, replyToResult, sentinelBase, negI32, wrapI32,
    cintToUsize, usizeToCInt]
  split_ifs <;>
    first
      | (exfalso; omega)
      | (simp only [Except.error.injEq]; omega)

/-- Witness for C2's amended theorem at `e = 9` (`EBADF`), the code the
crate's own test round-trips. -/
theorem err_roundtrip_errno_range_witness :
    (1 : Int) ≤ 9 ∧ (9 : Int) ≤ 4095 ∧
      replyToResult (resultToReply (.error 9)) = .error 9 :=
  ⟨by norm_num, by norm_num, err_roundtrip_errno_range 9 (by norm_num) (by norm_num)⟩

/-- C2 (counterexample): the negative code `e = -9` does not round-trip:
`Result → Reply` stores `-(-9) as usize = 9` in `ret[0]`, which lies below
the sentinel band, so `Reply → Result` returns `Ok([9, 0])`. -/
theorem err_roundtrip_fails_negative :
    replyToResult (resultToReply (.error (-9))) = .ok (9, 0) ∧
      replyToResult (resultToReply (.error (-9))) ≠ .error (-9) := by
  constructor
  · decide
  · decide

/-- C3: `Reply → Result` fails exactly when `ret[0]`, read as unsigned,
exceeds `2 ^ 64 - 4096`; otherwise it succeeds carrying both result words
`ret[0]` and `ret[1]`. -/
theorem reply_decode_err_iff_band (r : Reply) :
    ((∃ e, replyToResult r = .error e) ↔ 2 ^ 64 - 4096 < r.ret0) ∧
      (r.ret0 ≤ 2 ^ 64 - 4096 → replyToResult r = .ok (r.ret0, r.ret1)) := by
  have hok : r.ret0 ≤ 2 ^ 64 - 4096 → replyToResult r = .ok (r.ret0, r.ret1) := by
    intro hb
    simp only [replyToResult, sentinelBase]
    rw [if_neg (by omega)]
  refine ⟨⟨?_, ?_⟩, hok⟩
  · rintro ⟨e, he⟩
    by_contra hb
    rw [hok (by omega)] at he
    exact absurd he (by simp)
  · intro hb
    refine ⟨negI32 (usizeToCInt r.ret0), ?_⟩
    simp only [replyToResult, sentinelBase]
    rw [if_pos (by omega)]

/-- Witness for C3 at the reply `⟨5, 6, 7⟩` (success side) and
`⟨2 ^ 64 - 1, 0, 0⟩` (failure side). -/
theorem reply_decode_err_iff_band_witness :
    replyToResult ⟨5, 6, 7⟩ = .ok (5, 6) ∧
      (∃ e, replyToResult ⟨2 ^ 64 - 1, 0, 0⟩ = .error e) :=
  ⟨(reply_decode_err_iff_band ⟨5, 6, 7⟩).2 (by norm_num),
    (reply_decode_err_iff_band ⟨2 ^ 64 - 1, 0, 0⟩).1.2 (by norm_num)⟩

/-- C4: `Result → Reply` copies `Ok` result words verbatim with a zero
error word, and for a negative error code `e` (within `i32` range) stores
the negation of `e`, reinterpreted as an unsigned register, in `ret[0]`,
zeroing `ret[1]` and `err`. -/
theorem result_encode_spec :
    (∀ v0 v1 : Nat, resultToReply (.ok (v0, v1)) = ⟨v0, v1, 0⟩) ∧
      (∀ e : Int, -(2 ^ 31) < e → e < 0 →
        resultToReply (.error e) = ⟨(-e).toNat, 0, 0⟩) := by
  refine ⟨fun v0 v1 => rfl, fun e h1 h2 => ?_⟩
  simp only [resultToReply, negI32, wrapI32, cintToUsize]
  rw [if_pos (by omega)]
  simp only [Reply.mk.injEq, and_true]
  omega

/-- Witness for C4 at `v = (5, 6)` and `e = -9`. -/
theorem result_encode_spec_witness :
    resultToReply (.ok (5, 6)) = ⟨5, 6, 0⟩ ∧
      resultToReply (.error (-9)) = ⟨9, 0, 0⟩ :=
  ⟨result_encode_spec.1 5 6,
    by simpa using result_encode_spec.2 (-9) (by norm_num) (by norm_num)⟩

/-- C5: `Request::new(n, a)` keeps the selector `n`, copies `a[i]` into
slot `i` for every `i < min(len(a), 7)`, zero-fills the remaining slots up
to index 6, and depends on nothing of `a` beyond its first 7 elements. -/
theorem request_new_spec (n : Nat) (a : List Nat) :
    (Request.new n a).num = n ∧
      (∀ (i : Fin 7) (h : (i : Nat) < a.length),
        (Request.new n a).arg i = a.get ⟨i, h⟩) ∧
      (∀ i : Fin 7, a.length ≤ (i : Nat) → (Request.new n a).arg i = 0) ∧
      Request.new n a = Request.new n (a.take 7) := by
  refine ⟨rfl, ?_, ?_, ?_⟩
  · intro i h
    rw [Request.new_arg, List.getD_eq_getElem a 0 h]
    exact (List.get_eq_getElem a ⟨i, h⟩).symm
  · intro i h
    rw [Request.new_arg, List.getD_eq_default _ _ h]
  · have harg : (Request.new n a).arg = (Request.new n (a.take 7)).arg := by
      funext i
      rw [Request.new_arg, Request.new_arg, getD_take_of_lt a i 7 i.isLt]
    have hnum : (Request.new n a).num = (Request.new n (a.take 7)).num := rfl
    cases h1 : Request.new n a
    cases h2 : Request.new n (a.take 7)
    simp only [h1, h2] at harg hnum
    simp [harg, hnum]

/-- Witness for C5 at `n = 5`, `a = [1, 2, 3, 4, 5, 6, 7, 8]`: slot 1
holds `2`, and with the shorter slice `[1, 2]` slot 4 is zero-filled. -/
theorem request_new_spec_witness :
    (Request.new 5 [1, 2, 3, 4, 5, 6, 7, 8]).arg ⟨1, by norm_num⟩ = 2 ∧
      (Request.new 5 [1, 2]).arg ⟨4, by norm_num⟩ = 0 :=
  ⟨by simpa using
      (request_new_spec 5 [1, 2, 3, 4, 5, 6, 7, 8]).2.1 ⟨1, by norm_num⟩ (by norm_num),
    (request_new_spec 5 [1, 2]).2.2.1 ⟨4, by norm_num⟩ (by norm_num)⟩

/-- C6: `Block::buf_capacity()` plus `size_of::<Message>()` equals the
native page size, so `size_of::<Block>()` fills the page exactly. -/
theorem buf_capacity_plus_message_size :
    bufCapacity + messageSize = pageSize := by decide

/-- C7: on the compiled target (W = 8 bytes, P = 4096),
`size_of::<Request>() = 8·W`, `size_of::<Reply>() = 3·W`,
`size_of::<Message>() = 8·W` and `size_of::<Block>() = P`. -/
theorem struct_sizes :
    requestSize = 8 * registerSize ∧ replySize = 3 * registerSize ∧
      messageSize = 8 * registerSize ∧ blockSize = pageSize := by decide

/-- C9: `Reply → Result` reads only the `ret` field: two replies agreeing
on `ret[0]` and `ret[1]` decode identically whatever their `err` words. -/
theorem reply_decode_ignores_err (r1 r2 : Reply)
    (h0 : r1.ret0 = r2.ret0) (h1 : r1.ret1 = r2.ret1) :
    replyToResult r1 = replyToResult r2 := by
  simp only [replyToResult, h0, h1]

/-- Witness for C9: replies `⟨5, 6, 7⟩` and `⟨5, 6, 8⟩` differ only in
`err` and decode identically. -/
theorem reply_decode_ignores_err_witness :
    replyToResult ⟨5, 6, 7⟩ = replyToResult ⟨5, 6, 8⟩ :=
  reply_decode_ignores_err ⟨5, 6, 7⟩ ⟨5, 6, 8⟩ rfl rfl

/-- C10: for every 64-bit `ret[0]` inside the sentinel band, decoding
yields `Err(e)` with `e` a positive `c_int` in `1 ..= 4095`: the register
is truncated to 32 bits before negation and on the band this is always a
positive code. -/
theorem reply_decode_band_positive_errno (r : Reply)
    (hw : r.ret0 < 2 ^ 64) (hb : 2 ^ 64 - 4096 < r.ret0) :
    ∃ e : Int, replyToResult r = .error e ∧ 1 ≤ e ∧ e ≤ 4095 := by
  simp only [replyToResult, sentinelBase, negI32, wrapI32, usizeToCInt]
  rw [if_pos (by omega)]
  refine ⟨_, rfl, ?_, ?_⟩ <;> split_ifs <;> omega

/-- Witness for C10 at `ret[0] = 2 ^ 64 - 1`. -/
theorem reply_decode_band_positive_errno_witness :
    ∃ e : Int, replyToResult ⟨2 ^ 64 - 1, 0, 0⟩ = .error e ∧ 1 ≤ e ∧ e ≤ 4095 :=
  reply_decode_band_positive_errno ⟨2 ^ 64 - 1, 0, 0⟩ (by norm_num) (by norm_num)

end Sallyport
